import Mathlib

/-!
Verification of the QRFileTransfer protocol core (src/js/QRFileTransfer.js and
the variant in src/unnamed/part_000, whose core logic is identical up to the
private-field syntax).

Shallow embedding conventions:
* JavaScript strings are modelled as `List Char`; `String.prototype.trim` is
  `jsTrim` below.
* Byte sequences (Blob / Uint8Array / File contents) are `List Nat` with every
  element `< 256`.
* `Date.now()` nonces are `Nat` values supplied by the caller (`now`
  parameters) or by a global clock in the two-peer system model.
* The external collaborators that are not repository code are parameters:
  `hash` stands for the raw hex output of `crypto.subtle.digest('SHA-256', ·)`
  composed with hex formatting (`Utils.sha256` adds the source's trailing
  `.trim()`), and `metaStringify` / `metaParse` stand for `JSON.stringify` /
  `JSON.parse` applied to the meta-info object.
* DOM/UI effects (progress labels, buttons, timers) are not part of the state;
  the displayed QR image is modelled as the `displayed` field of `CoreState`,
  and the file actually handed to the browser download is the `delivered`
  field.
-/

namespace QRFT

/-- JavaScript whitespace as relevant to `String.prototype.trim` (space, tab,
newline, carriage return cover every character that can occur here). -/
def isJsSpace (ch : Char) : Bool :=
  ch = ' ' || ch = '\t' || ch = '\n' || ch = '\r'

/-- Model of `String.prototype.trim`: drop leading and trailing whitespace. -/
def jsTrim (s : List Char) : List Char :=
  ((s.dropWhile isJsSpace).reverse.dropWhile isJsSpace).reverse

/-! ### Base64 (standard alphabet, padded), as used by `FileReader.readAsDataURL`
on the Sender and `window.atob` on the Receiver. -/

/-- The standard Base64 alphabet. -/
def b64Alphabet : List Char :=
  "ABCDEFGHIJKLMNOPQRSTUVWXYZabcdefghijklmnopqrstuvwxyz0123456789+/".toList

/-- Positional lookup with default, written out so it is easy to induct on. -/
def listGetD : List Char → Nat → Char
  | [], _ => 'A'
  | x :: _, 0 => x
  | _ :: xs, n + 1 => listGetD xs n

/-- Index of a character in a list, or `none`. -/
def listFindIdx : List Char → Char → Option Nat
  | [], _ => none
  | x :: xs, ch => if x = ch then some 0 else (listFindIdx xs ch).map (· + 1)

/-- The character encoding a sextet. -/
def b64Char (n : Nat) : Char := listGetD b64Alphabet n

/-- The sextet encoded by a character (`none` for characters outside the
alphabet; `window.atob` throws on those). -/
def b64Index (ch : Char) : Option Nat := listFindIdx b64Alphabet ch

/-- Base64-encode a byte list (standard alphabet, `=` padding), the encoding
produced by `FileReader.readAsDataURL` for the sliced chunk `Blob`. -/
def base64EncodeChars : List Nat → List Char
  | [] => []
  | [a] => [b64Char (a / 4), b64Char (a % 4 * 16), '=', '=']
  | [a, b] => [b64Char (a / 4), b64Char (a % 4 * 16 + b / 16), b64Char (b % 16 * 4), '=']
  | a :: b :: c :: rest =>
      b64Char (a / 4) :: b64Char (a % 4 * 16 + b / 16) ::
        b64Char (b % 16 * 4 + c / 64) :: b64Char (c % 64) :: base64EncodeChars rest

/-- Base64-decode (model of `window.atob` followed by the char-code loop of
`Utils.bufferArrayFromBase64`); `none` models the `atob` exception on
malformed input. -/
def base64DecodeChars : List Char → Option (List Nat)
  | [] => some []
  | c1 :: c2 :: c3 :: c4 :: rest =>
      if c3 = '=' ∧ c4 = '=' ∧ rest = [] then
        (b64Index c1).bind fun v1 => (b64Index c2).map fun v2 => [v1 * 4 + v2 / 16]
      else if c4 = '=' ∧ rest = [] then
        (b64Index c1).bind fun v1 => (b64Index c2).bind fun v2 =>
          (b64Index c3).map fun v3 => [v1 * 4 + v2 / 16, v2 % 16 * 16 + v3 / 4]
      else
        (b64Index c1).bind fun v1 => (b64Index c2).bind fun v2 =>
          (b64Index c3).bind fun v3 => (b64Index c4).bind fun v4 =>
            (base64DecodeChars rest).map fun bs =>
              (v1 * 4 + v2 / 16) :: (v2 % 16 * 16 + v3 / 4) :: (v3 % 4 * 64 + v4) :: bs
  | _ => none

/-! ### Envelope data (`QRFileTransfer.Core.ChunkType` and the `qrData` object
built in `_updateQRImage` / parsed in `_onQRDataReceived`). -/

/-- The supported chunk types (`QRFileTransfer.Core.ChunkType`). -/
inductive ChunkType
  | metaInfo | metaInfoReceived | okNext | evalSha256 | invalidSha256 | completed | unknown
deriving DecidableEq, Repr

/-- The numeric identifier of each chunk type (the `id` fields of the
`ChunkType` enum object). -/
def ChunkType.id : ChunkType → Nat
  | .metaInfo => 0
  | .metaInfoReceived => 1
  | .okNext => 2
  | .evalSha256 => 3
  | .invalidSha256 => 4
  | .completed => 50
  | .unknown => 100

/-- `Core._chunkTypeFromId`. -/
def chunkTypeFromId (id : Nat) : ChunkType :=
  match id with
  | 0 => .metaInfo
  | 1 => .metaInfoReceived
  | 2 => .okNext
  | 3 => .evalSha256
  | 4 => .invalidSha256
  | 50 => .completed
  | _ => .unknown

/-- A decoded wire envelope: the JSON object `{ "ckTId": …, "bd": …, "dt": … }`
that `_updateQRImage` serialises into the QR image and `_onQRDataReceived`
parses back.  `dt` is the `Date.now()` nonce. -/
structure QREnvelope where
  ckTId : Nat
  bd : List Char
  dt : Nat
deriving DecidableEq, Repr

/-- The meta-info object `FileWorker.metaInfo()` returns, as parsed from the
`meta_info` body by `JSON.parse` on the Receiver. -/
structure MetaInfo where
  fileName : List Char
  fileType : List Char
  fileSize : Nat
  fileChunks : Nat
  chunkSize : Nat
deriving DecidableEq, Repr

/-- The file handed to the browser download by `writerDownloadFile`
(`_writerCreateDownloadFile` builds one Blob from the whole writer buffer with
the stored name and MIME type). -/
structure Delivered where
  fileName : List Char
  fileType : List Char
  bytes : List Nat
deriving DecidableEq, Repr

/-! ### `QRFileTransfer.Utils` (the parts the core depends on). -/

namespace Utils

/-- `Utils.sha256`: the SHA-256 hex digest of a string.  The cryptographic
primitive (`crypto.subtle.digest` + hex formatting) is the external parameter
`hash`; the source's final `hashHex.trim()` is the `jsTrim`. -/
def sha256 (hash : List Char → List Char) (message : List Char) : List Char :=
  jsTrim (hash message)

/-- `Utils.blobAsBase64`: `FileReader.readAsDataURL` produces
`data:<mime>;base64,<payload>`; the function returns `split(',')[1].trim()`,
i.e. the trimmed standard Base64 of the blob bytes. -/
def blobAsBase64 (blob : List Nat) : List Char :=
  jsTrim (base64EncodeChars blob)

/-- `Utils.bufferArrayFromBase64`: `window.atob` plus the char-code loop;
`none` models the exception `atob` throws on malformed Base64 (which rejects
the enclosing promise and aborts the caller). -/
def bufferArrayFromBase64 (base64 : List Char) : Option (List Nat) :=
  base64DecodeChars base64

end Utils

/-! ### `QRFileTransfer.FileWorker`. -/

/-- The `FileWorker` instance state.  `inputFile` is the selected `File`'s
byte content (reader mode only); `writerBuffer` is the receiver's in-memory
list of committed chunk blobs (each stored as its raw bytes). -/
structure FileWorker where
  readMode : Bool := true
  inputFile : Option (List Nat) := none
  chunkSize : Nat := 128
  inputFileType : List Char := []
  inputFileName : List Char := []
  fileSize : Nat := 0
  fileChunks : Nat := 0
  curChunk : Nat := 0
  lastChunkBlob : Option (List Nat) := none
  lastChunkBase64 : Option (List Char) := none
  lastChunkSha256 : Option (List Char) := none
  writerBuffer : List (List Nat) := []
deriving DecidableEq, Repr

namespace FileWorker

/-- `Math.ceil(a / b)` on the nonnegative values used by `updateChunkSize`. -/
def jsCeilDiv (a b : Nat) : Nat := (a + b - 1) / b

/-- `FileWorker.updateChunkSize`: reader mode only; rewrites the chunk size
and recomputes `fileChunks = Math.ceil(inputFile.size / chunkSize)` (the
source passes a stray second argument to `Math.ceil`, which is ignored). -/
def updateChunkSize (w : FileWorker) (size : Nat) : FileWorker :=
  if w.readMode = false then w
  else
    { w with chunkSize := size,
             fileChunks := jsCeilDiv (w.inputFile.getD []).length size }

/-- `FileWorker.createReader`: a reader over the picked file.  A `File` is
modelled by its name, MIME type and bytes; an empty (after trim) MIME type
defaults to `application/octet-stream`. -/
def createReader (fileName fileType : List Char) (bytes : List Nat) : FileWorker :=
  let w : FileWorker :=
    { readMode := true,
      inputFile := some bytes,
      inputFileType :=
        if (jsTrim fileType).length = 0 then "application/octet-stream".toList else fileType,
      inputFileName := fileName,
      fileSize := bytes.length }
  w.updateChunkSize 128

/-- `FileWorker.createWriter`: a writer configured from the sender's parsed
meta-info object.  No validation is performed on any field. -/
def createWriter (senderMetaInfo : MetaInfo) : FileWorker :=
  { readMode := false,
    inputFileType := senderMetaInfo.fileType,
    inputFileName := senderMetaInfo.fileName,
    fileSize := senderMetaInfo.fileSize,
    chunkSize := senderMetaInfo.chunkSize,
    fileChunks := senderMetaInfo.fileChunks }

/-- `FileWorker.metaInfo()`. -/
def metaInfo (w : FileWorker) : Option MetaInfo :=
  if w.readMode = true ∧ w.inputFile = none then none
  else some ⟨w.inputFileName, w.inputFileType, w.fileSize, w.fileChunks, w.chunkSize⟩

/-- `FileWorker.readNextChunk`: reader mode only.  Slices the next chunk,
stores its Base64 wire form (`Utils.blobAsBase64`) and the SHA-256 of that
wire form (`Utils.sha256`), and advances `curChunk`.  Past the last chunk the
three caches are nulled. -/
def readNextChunk (hash : List Char → List Char) (w : FileWorker) : FileWorker :=
  if w.readMode = false then w
  else
    match w.inputFile with
    | none =>
        { w with lastChunkBlob := none, lastChunkBase64 := none, lastChunkSha256 := none }
    | some file =>
        if w.curChunk ≥ w.fileChunks then
          { w with lastChunkBlob := none, lastChunkBase64 := none, lastChunkSha256 := none }
        else
          let offset := w.curChunk * w.chunkSize
          let blob := (file.drop offset).take w.chunkSize
          let b64 := Utils.blobAsBase64 blob
          { w with lastChunkBlob := some blob,
                   lastChunkBase64 := some b64,
                   lastChunkSha256 := some (Utils.sha256 hash b64),
                   curChunk := w.curChunk + 1 }

/-- `FileWorker.writerSetPendingChunk`: writer mode only.  Decodes the
*trimmed* wire form into bytes, but caches the *untrimmed* wire form and the
SHA-256 of the untrimmed wire form.  `none` models the `atob` exception on
undecodable input (the enclosing async call rejects, so the caller's
remaining statements do not run). -/
def writerSetPendingChunk (hash : List Char → List Char) (w : FileWorker)
    (base64Chunk : List Char) : Option FileWorker :=
  if w.readMode = true then some w
  else
    match Utils.bufferArrayFromBase64 (jsTrim base64Chunk) with
    | none => none
    | some bytes =>
        some { w with lastChunkBlob := some bytes,
                      lastChunkBase64 := some base64Chunk,
                      lastChunkSha256 := some (Utils.sha256 hash base64Chunk) }

/-- `FileWorker.writerCommitPendingChunk`: writer mode only; a no-op when the
pending slot is empty, otherwise appends the pending blob to the buffer,
clears the three caches and advances `curChunk`. -/
def writerCommitPendingChunk (w : FileWorker) : FileWorker :=
  if w.readMode = true then w
  else
    match w.lastChunkBlob with
    | none => w
    | some blob =>
        { w with writerBuffer := w.writerBuffer ++ [blob],
                 lastChunkBlob := none,
                 lastChunkBase64 := none,
                 lastChunkSha256 := none,
                 curChunk := w.curChunk + 1 }

/-- `FileWorker._writerCreateDownloadFile`: builds a single Blob that
concatenates the whole writer buffer, labelled with the stored file name and
MIME type (the `undefined` result in reader mode is `none`). -/
def writerCreateDownloadFile (w : FileWorker) : Option Delivered :=
  if w.readMode = true then none
  else some ⟨w.inputFileName, w.inputFileType, w.writerBuffer.flatten⟩

end FileWorker

/-! ### `QRFileTransfer.Core`: the per-device protocol state and the
observation handler `_onQRDataReceived`. -/

/-- The two views in which the protocol runs (`Core.ViewOption.sendFile` /
`receiveFile`; in the `home`/`help` views `_isRunning` is always false, so
they are irrelevant to the handler). -/
inductive ViewOption
  | sendFile | receiveFile
deriving DecidableEq, Repr

/-- The `Core` statics that the protocol handler reads and writes, plus the
two externally visible effects: `displayed` is the envelope currently encoded
in this device's QR image (`none` = image cleared), and `delivered` is the
file handed to the browser download (`writerDownloadFile`), if any. -/
structure CoreState where
  displayedView : ViewOption
  isRunning : Bool
  fileWorker : Option FileWorker
  lastReceivedDatetime : Option Nat
  displayed : Option QREnvelope
  delivered : Option Delivered
deriving DecidableEq, Repr

namespace Core

/-- `Core._updateQRImage`: with a string input, displays the envelope
`{ ckTId, bd: input.trim(), dt: Date.now() }`; with `null` input the shown
image is cleared (when no image is shown the source would instead throw on
`input.trim()`; in every modelled scenario an image is shown). -/
def updateQRImage (now : Nat) (chunkType : ChunkType) (input : Option (List Char)) :
    Option QREnvelope :=
  match input with
  | none => none
  | some s => some ⟨chunkType.id, jsTrim s, now⟩

/-- State update corresponding to one `_updateQRImage` call. -/
def updateQRImageSt (now : Nat) (st : CoreState) (chunkType : ChunkType)
    (input : Option (List Char)) : CoreState :=
  { st with displayed := updateQRImage now chunkType input }

/-- `Core.stopReceiving` (and identically `stopSending`): `QRDecoder.stop`
plus `_setupReceiver` → `_reset`, which clears `_isRunning`, `_fileWorker`
and the shown QR image.  `_lastReceivedDatetime` is *not* reset. -/
def stopReceivingSt (st : CoreState) : CoreState :=
  { st with isRunning := false, fileWorker := none, displayed := none }

/-- The kind-specific part of `_onQRDataReceived` (the nested
`switch (displayedView) / switch (chunkType)`), applied after the nonce has
been recorded.  `hash` and `metaParse` are the external collaborators
(SHA-256 and `JSON.parse` of the meta-info body). -/
def dispatch (hash : List Char → List Char) (metaParse : List Char → Option MetaInfo)
    (now : Nat) (st : CoreState) (chunkType : ChunkType) (qrData : List Char) : CoreState :=
  match st.displayedView with
  | .sendFile =>
      match chunkType with
      | .metaInfoReceived =>
          match st.fileWorker with
          | none => st
          | some w =>
              let w' := w.readNextChunk hash
              updateQRImageSt now { st with fileWorker := some w' } .okNext w'.lastChunkBase64
      | .evalSha256 =>
          match st.fileWorker with
          | none => st
          | some w =>
              if some qrData = w.lastChunkSha256 then
                if w.curChunk = w.fileChunks then
                  updateQRImageSt now st .completed (some [])
                else
                  let w' := w.readNextChunk hash
                  updateQRImageSt now { st with fileWorker := some w' } .okNext
                    w'.lastChunkBase64
              else
                updateQRImageSt now st .invalidSha256 w.lastChunkBase64
      | _ => st
  | .receiveFile =>
      match chunkType with
      | .metaInfo =>
          match st.fileWorker with
          | some _ => st
          | none =>
              match metaParse qrData with
              | none => st
              | some m =>
                  updateQRImageSt now
                    { st with fileWorker := some (FileWorker.createWriter m) }
                    .metaInfoReceived (some [])
      | .okNext =>
          match st.fileWorker with
          | none => st
          | some w =>
              let w1 := w.writerCommitPendingChunk
              match w1.writerSetPendingChunk hash qrData with
              | none => { st with fileWorker := some w1 }
              | some w2 =>
                  updateQRImageSt now { st with fileWorker := some w2 } .evalSha256
                    w2.lastChunkSha256
      | .invalidSha256 =>
          match st.fileWorker with
          | none => st
          | some w =>
              match w.writerSetPendingChunk hash qrData with
              | none => st
              | some w2 =>
                  updateQRImageSt now { st with fileWorker := some w2 } .evalSha256
                    w2.lastChunkSha256
      | .completed =>
          match st.fileWorker with
          | none => st
          | some w =>
              let w' := w.writerCommitPendingChunk
              let st1 := { st with fileWorker := some w' }
              let st2 :=
                match w'.writerCreateDownloadFile with
                | none => st1
                | some d => { st1 with delivered := some d }
              stopReceivingSt st2
      | _ => st

/-- `Core._onQRDataReceived`.  The input is the parse result of the raw QR
string: `none` models every early return (null/empty raw data, JSON parse
failure, or a missing `ckTId`/`bd`/`dt` property).  The nonce `dt` is stored
*before* the duplicate check, and an observation is dropped exactly when its
`dt` strictly equals the previously stored one. -/
def onQRDataReceived (hash : List Char → List Char)
    (metaParse : List Char → Option MetaInfo) (now : Nat) (st : CoreState)
    (raw : Option QREnvelope) : CoreState :=
  if st.isRunning = false then st
  else
    match raw with
    | none => st
    | some env =>
        let chunkType := chunkTypeFromId env.ckTId
        let previousDatetime := st.lastReceivedDatetime
        let st' := { st with lastReceivedDatetime := some env.dt }
        if previousDatetime = some env.dt then st'
        else dispatch hash metaParse now st' chunkType env.bd

end Core

/-! ### Concrete collaborators and states used by the closed theorems. -/

/-- A stand-in digest collaborator that ignores its input. -/
def nullHash : List Char → List Char := fun _ => []

/-- A digest collaborator that brackets its input, so the hashed material is
visible in the output. -/
def tagHash : List Char → List Char := fun s => '#' :: (s ++ ['#'])

/-- A stand-in meta-info JSON parser that always fails. -/
def noParse : List Char → Option MetaInfo := fun _ => none

/-- Sender worker for an empty (0-byte) file. -/
def c2Worker : FileWorker := FileWorker.createReader ['e'] ['t'] []

/-- Sender state advertising the meta info of the empty file. -/
def c2St : CoreState := ⟨.sendFile, true, some c2Worker, none, some ⟨0, [], 0⟩, none⟩

def c3St : CoreState := ⟨.receiveFile, true, none, some 5, none, none⟩

def c3Env : QREnvelope := ⟨100, [], 3⟩

def c3wSt : CoreState := ⟨.receiveFile, true, none, some 2, none, none⟩

def c3wEnv : QREnvelope := ⟨100, [], 2⟩

/-- A 5-byte source file read with chunk size 4 (two chunks). -/
def c4Reader : FileWorker :=
  (FileWorker.createReader ['f'] ['t'] [0, 1, 2, 3, 4]).updateChunkSize 4

/-- The reader after producing chunk 1 (wire form `AAECAw==`). -/
def c4ReaderAfter1 : FileWorker := c4Reader.readNextChunk nullHash

def c4SendSt : CoreState := ⟨.sendFile, true, some c4ReaderAfter1, none, none, none⟩

/-- Receiver worker with a pending chunk waiting for acknowledgement. -/
def c5W : FileWorker :=
  { FileWorker.createWriter ⟨['f'], ['t'], 8, 2, 4⟩ with
    lastChunkBlob := some [9, 9, 9, 9],
    lastChunkBase64 := some ['Q'],
    lastChunkSha256 := some ['s'] }

def c5St : CoreState := ⟨.receiveFile, true, some c5W, none, none, none⟩

def c6St : CoreState :=
  ⟨.sendFile, true, some c4ReaderAfter1, none, some ⟨2, "AAECAw==".toList, 1⟩, none⟩

/-- Invalid metadata: empty file name, `chunk_size = 0`, and `chunk_count`
inconsistent with `file_size`/`chunk_size`. -/
def c7Meta : MetaInfo := ⟨[], [], 10, 3, 0⟩

def c7Parse : List Char → Option MetaInfo := fun _ => some c7Meta

def c7St : CoreState := ⟨.receiveFile, true, none, none, none, none⟩

def c7Env : QREnvelope := ⟨0, ['x'], 4⟩

def c7wSt : CoreState := ⟨.receiveFile, true, none, some 1, none, none⟩

def c7wEnv : QREnvelope := ⟨0, ['y'], 2⟩

/-- Fresh receiver worker (no pending chunk). -/
def c8W : FileWorker := FileWorker.createWriter ⟨['f'], ['t'], 8, 2, 4⟩

def c8St : CoreState := ⟨.receiveFile, true, some c8W, none, none, none⟩

/-- An `ok_next` observation whose body carries surrounding whitespace. -/
def c8Env : QREnvelope := ⟨2, " AAECAw== ".toList, 6⟩

def c8wSt : CoreState := ⟨.receiveFile, true, some c8W, some 1, none, none⟩

def c8wEnv : QREnvelope := ⟨2, "BAUGBw==".toList, 7⟩

def c9St : CoreState := ⟨.sendFile, true, none, none, none, none⟩

def c9Env : QREnvelope := ⟨100, [], 11⟩

/-- Receiver worker with two committed chunks and an empty pending slot. -/
def c10W : FileWorker :=
  { FileWorker.createWriter ⟨['f'], ['t'], 4, 2, 2⟩ with
    writerBuffer := [[1, 2], [3, 4]], curChunk := 2 }

def c10St : CoreState := ⟨.receiveFile, true, some c10W, none, none, none⟩

def c10Env : QREnvelope := ⟨50, [], 3⟩

/-! ### The two-peer session model for the end-to-end claim.

A `Scenario` fixes the external collaborators and the session inputs; a `Sys`
is the pair of device states plus a global clock supplying `Date.now()`
nonces.  Two channel relations are modelled.  `Step` is the noiseless
channel: an observation delivers exactly the envelope currently displayed by
the peer (repeat sightings included — the nonce deduplication of
`_onQRDataReceived` handles those); lost frames are modelled simply by a step
not being taken.  `StepN` adds observation noise (a sighting whose nonce is
misread while kind and body arrive intact), the minimal corruption of the
spec's lossy/noisy medium; under it the end-to-end integrity claim fails, so
the positive end-to-end theorem is stated over `Step` and the counterexample
over `StepN`. -/

/-- External collaborators plus the session inputs: the picked file (name,
MIME type, bytes) and the chunk size chosen before starting. -/
structure Scenario where
  hash : List Char → List Char
  metaParse : List Char → Option MetaInfo
  metaStringify : MetaInfo → List Char
  fileName : List Char
  fileType : List Char
  bytes : List Nat
  chunkSize : Nat

namespace Session

/-- The Sender's worker right after file selection and chunk-size choice. -/
def senderW0 (sc : Scenario) : FileWorker :=
  (FileWorker.createReader sc.fileName sc.fileType sc.bytes).updateChunkSize sc.chunkSize

/-- Number of chunks of the session. -/
def K (sc : Scenario) : Nat := FileWorker.jsCeilDiv sc.bytes.length sc.chunkSize

/-- The meta info the Sender advertises (`senderW0.metaInfo()`). -/
def m0 (sc : Scenario) : MetaInfo :=
  ⟨sc.fileName,
   if (jsTrim sc.fileType).length = 0 then "application/octet-stream".toList else sc.fileType,
   sc.bytes.length, K sc, sc.chunkSize⟩

/-- Raw bytes of the chunk with 0-based index `i`. -/
def chunkAt (sc : Scenario) (i : Nat) : List Nat :=
  (sc.bytes.drop (i * sc.chunkSize)).take sc.chunkSize

/-- Wire form (Base64) of chunk `i`, as produced by `Utils.blobAsBase64`. -/
def wire (sc : Scenario) (i : Nat) : List Char := Utils.blobAsBase64 (chunkAt sc i)

/-- Digest of chunk `i`'s wire form, as produced by `Utils.sha256`. -/
def sha (sc : Scenario) (i : Nat) : List Char := Utils.sha256 sc.hash (wire sc i)

/-- The assumptions on a scenario: byte-valued file content, a positive chunk
size, a whitespace-free digest output (SHA-256 hex never contains
whitespace), and `JSON.parse` inverting `JSON.stringify` on the advertised
meta object. -/
def Valid (sc : Scenario) : Prop :=
  (∀ b ∈ sc.bytes, b < 256) ∧ 0 < sc.chunkSize ∧
  (∀ s, ∀ ch ∈ sc.hash s, isJsSpace ch = false) ∧
  sc.metaParse (jsTrim (sc.metaStringify (m0 sc))) = some (m0 sc)

/-- The `meta_info` envelope displayed by `startSending` (nonce 0). -/
def metaEnv (sc : Scenario) : QREnvelope :=
  ⟨ChunkType.metaInfo.id, jsTrim (sc.metaStringify (m0 sc)), 0⟩

def mirEnv (n : Nat) : QREnvelope := ⟨ChunkType.metaInfoReceived.id, [], n⟩

def okEnv (sc : Scenario) (i a : Nat) : QREnvelope := ⟨ChunkType.okNext.id, wire sc i, a⟩

def evalEnv (sc : Scenario) (i b : Nat) : QREnvelope :=
  ⟨ChunkType.evalSha256.id, sha sc i, b⟩

def doneEnv (a : Nat) : QREnvelope := ⟨ChunkType.completed.id, [], a⟩

/-- A running Sender core state. -/
def sendSt (w : FileWorker) (disp : Option QREnvelope) (last : Option Nat) : CoreState :=
  ⟨.sendFile, true, some w, last, disp, none⟩

/-- A running Receiver core state. -/
def recvRun (fw : Option FileWorker) (disp : Option QREnvelope) (last : Option Nat) :
    CoreState :=
  ⟨.receiveFile, true, fw, last, disp, none⟩

/-- The Sender's worker after having produced chunk index `n` (0-based). -/
def senderC (sc : Scenario) (n : Nat) : FileWorker :=
  { senderW0 sc with
    curChunk := n + 1
    lastChunkBlob := some (chunkAt sc n)
    lastChunkBase64 := some (wire sc n)
    lastChunkSha256 := some (sha sc n) }

/-- The Receiver's worker freshly created from the meta info. -/
def recvW0 (sc : Scenario) : FileWorker := FileWorker.createWriter (m0 sc)

/-- The Receiver's worker with chunks `0 … p-1` committed and chunk `p`
pending. -/
def recvWP (sc : Scenario) (p : Nat) : FileWorker :=
  { recvW0 sc with
    writerBuffer := (List.range p).map (chunkAt sc)
    curChunk := p
    lastChunkBlob := some (chunkAt sc p)
    lastChunkBase64 := some (wire sc p)
    lastChunkSha256 := some (sha sc p) }

/-- The file the Receiver delivers on completion. -/
def deliv (sc : Scenario) : Delivered := ⟨(m0 sc).fileName, (m0 sc).fileType, sc.bytes⟩

/-- The joint state: both devices plus the global `Date.now()` clock. -/
structure Sys where
  sender : CoreState
  receiver : CoreState
  time : Nat
deriving DecidableEq, Repr

/-- Initial joint state: Sender advertising `meta_info`, Receiver running with
no session yet. -/
def sysInit (sc : Scenario) : Sys :=
  { sender := sendSt (senderW0 sc) (some (metaEnv sc)) none
    receiver := recvRun none none none
    time := 1 }

/-- One step of the *noiseless* visual channel: one side observes, intact,
the envelope the other side currently displays (possibly repeatedly), and the
global clock advances so every emission gets a fresh nonce.  This is the
channel assumption of the amended end-to-end statement; `StepN` below extends
it with the observation noise under which the end-to-end claim fails. -/
inductive Step (sc : Scenario) : Sys → Sys → Prop
  | senderObs (sys : Sys) (env : QREnvelope) (h : sys.receiver.displayed = some env) :
      Step sc sys
        { sender := Core.onQRDataReceived sc.hash sc.metaParse sys.time sys.sender (some env)
          receiver := sys.receiver
          time := sys.time + 1 }
  | receiverObs (sys : Sys) (env : QREnvelope) (h : sys.sender.displayed = some env) :
      Step sc sys
        { sender := sys.sender
          receiver := Core.onQRDataReceived sc.hash sc.metaParse sys.time sys.receiver (some env)
          time := sys.time + 1 }

/-- Reachable joint states of one session over the noiseless channel. -/
inductive Reach (sc : Scenario) : Sys → Prop
  | init : Reach sc (sysInit sc)
  | step {s s' : Sys} : Reach sc s → Step sc s s' → Reach sc s'

/-- The visual channel with observation noise (the spec's lossy/noisy medium):
besides exact sightings, a displayed envelope may be misread.  The misread
modelled here is the most conservative possible — kind and body are decoded
intact and only the `Date.now()` nonce is corrupted (e.g. a single misread
digit) — which already suffices to break the end-to-end integrity claim. -/
inductive StepN (sc : Scenario) : Sys → Sys → Prop
  | senderObs (sys : Sys) (env : QREnvelope) (h : sys.receiver.displayed = some env) :
      StepN sc sys
        { sender := Core.onQRDataReceived sc.hash sc.metaParse sys.time sys.sender (some env)
          receiver := sys.receiver
          time := sys.time + 1 }
  | receiverObs (sys : Sys) (env : QREnvelope) (h : sys.sender.displayed = some env) :
      StepN sc sys
        { sender := sys.sender
          receiver := Core.onQRDataReceived sc.hash sc.metaParse sys.time sys.receiver (some env)
          time := sys.time + 1 }
  | receiverMisread (sys : Sys) (env : QREnvelope) (dt' : Nat)
      (h : sys.sender.displayed = some env) :
      StepN sc sys
        { sender := sys.sender
          receiver := Core.onQRDataReceived sc.hash sc.metaParse sys.time sys.receiver
            (some ⟨env.ckTId, env.bd, dt'⟩)
          time := sys.time + 1 }
  | senderMisread (sys : Sys) (env : QREnvelope) (dt' : Nat)
      (h : sys.receiver.displayed = some env) :
      StepN sc sys
        { sender := Core.onQRDataReceived sc.hash sc.metaParse sys.time sys.sender
            (some ⟨env.ckTId, env.bd, dt'⟩)
          receiver := sys.receiver
          time := sys.time + 1 }

/-- Reachable joint states of one session over the noisy channel. -/
inductive ReachN (sc : Scenario) : Sys → Prop
  | init : ReachN sc (sysInit sc)
  | step {s s' : Sys} : ReachN sc s → StepN sc s s' → ReachN sc s'

/-- Phase: initial (meta advertised, Receiver without session). -/
def ph0 (sc : Scenario) (sys : Sys) : Prop :=
  sys.sender = sendSt (senderW0 sc) (some (metaEnv sc)) none ∧
  sys.receiver = recvRun none none none ∧
  0 < sys.time

/-- Phase: Receiver acknowledged the meta info. -/
def ph1 (sc : Scenario) (sys : Sys) : Prop :=
  ∃ nM, sys.sender = sendSt (senderW0 sc) (some (metaEnv sc)) none ∧
    sys.receiver = recvRun (some (recvW0 sc)) (some (mirEnv nM)) (some 0) ∧
    0 < nM ∧ nM < sys.time

/-- Phase: zero-chunk session stuck after the acknowledgement (the Sender has
cleared its QR image; no further step changes anything). -/
def phDead (sc : Scenario) (sys : Sys) : Prop :=
  K sc = 0 ∧
  ∃ nM, sys.sender = sendSt (senderW0 sc) none (some nM) ∧
    sys.receiver = recvRun (some (recvW0 sc)) (some (mirEnv nM)) (some 0) ∧
    0 < nM ∧ nM < sys.time

/-- Phase: chunk 0 on the wire, Receiver still showing the acknowledgement. -/
def phA0 (sc : Scenario) (sys : Sys) : Prop :=
  1 ≤ K sc ∧
  ∃ nM a, sys.sender = sendSt (senderC sc 0) (some (okEnv sc 0 a)) (some nM) ∧
    sys.receiver = recvRun (some (recvW0 sc)) (some (mirEnv nM)) (some 0) ∧
    0 < nM ∧ nM < a ∧ a < sys.time

/-- Phase: chunk `p+1` on the wire, Receiver still pending on chunk `p`. -/
def phA (sc : Scenario) (sys : Sys) : Prop :=
  ∃ p aPrev b a, p + 2 ≤ K sc ∧
    sys.sender = sendSt (senderC sc (p + 1)) (some (okEnv sc (p + 1) a)) (some b) ∧
    sys.receiver = recvRun (some (recvWP sc p)) (some (evalEnv sc p b)) (some aPrev) ∧
    aPrev < b ∧ b < a ∧ a < sys.time

/-- Phase: Receiver has chunk `p` pending and reported its digest; Sender has
not yet advanced. -/
def phB (sc : Scenario) (sys : Sys) : Prop :=
  ∃ p sl a b, p + 1 ≤ K sc ∧
    sys.sender = sendSt (senderC sc p) (some (okEnv sc p a)) (some sl) ∧
    sys.receiver = recvRun (some (recvWP sc p)) (some (evalEnv sc p b)) (some a) ∧
    sl < a ∧ a < b ∧ b < sys.time

/-- Phase: `completed` on the wire, last chunk still pending on the Receiver. -/
def phC (sc : Scenario) (sys : Sys) : Prop :=
  1 ≤ K sc ∧
  ∃ aPrev b a2,
    sys.sender = sendSt (senderC sc (K sc - 1)) (some (doneEnv a2)) (some b) ∧
    sys.receiver =
      recvRun (some (recvWP sc (K sc - 1))) (some (evalEnv sc (K sc - 1) b)) (some aPrev) ∧
    aPrev < b ∧ b < a2 ∧ a2 < sys.time

/-- Phase: the Receiver processed `completed`, delivered the file and tore the
session down. -/
def phD (sc : Scenario) (sys : Sys) : Prop :=
  ∃ a2 sl,
    sys.sender = sendSt (senderC sc (K sc - 1)) (some (doneEnv a2)) (some sl) ∧
    sys.receiver = ⟨.receiveFile, false, none, some a2, none, some (deliv sc)⟩ ∧
    sl < a2 ∧ a2 < sys.time

/-- The session invariant: every reachable joint state is in one of the eight
phases. -/
def Inv (sc : Scenario) (sys : Sys) : Prop :=
  ph0 sc sys ∨ ph1 sc sys ∨ phDead sc sys ∨ phA0 sc sys ∨ phA sc sys ∨ phB sc sys ∨
    phC sc sys ∨ phD sc sys

end Session

/-- The meta info of the concrete end-to-end scenario below. -/
def wMeta : MetaInfo := ⟨['f'], ['t'], 4, 1, 4⟩

/-- The concrete scenario used to exercise the end-to-end theorem: the 4-byte
file `[0, 1, 2, 3]` sent in one chunk of size 4. -/
def wSc : Scenario :=
  { hash := nullHash
    metaParse := fun _ => some wMeta
    metaStringify := fun _ => []
    fileName := ['f']
    fileType := ['t']
    bytes := [0, 1, 2, 3]
    chunkSize := 4 }

/-- The concrete session run: initial state. -/
def wSys0 : Session.Sys := Session.sysInit wSc

/-- After the Receiver observes `meta_info`. -/
def wSys1 : Session.Sys :=
  { sender := wSys0.sender
    receiver := Core.onQRDataReceived wSc.hash wSc.metaParse wSys0.time wSys0.receiver
      (some (Session.metaEnv wSc))
    time := wSys0.time + 1 }

/-- After the Sender observes `meta_info_received`. -/
def wSys2 : Session.Sys :=
  { sender := Core.onQRDataReceived wSc.hash wSc.metaParse wSys1.time wSys1.sender
      (some (Session.mirEnv 1))
    receiver := wSys1.receiver
    time := wSys1.time + 1 }

/-- After the Receiver observes `ok_next` for the single chunk. -/
def wSys3 : Session.Sys :=
  { sender := wSys2.sender
    receiver := Core.onQRDataReceived wSc.hash wSc.metaParse wSys2.time wSys2.receiver
      (some (Session.okEnv wSc 0 2))
    time := wSys2.time + 1 }

/-- After the Sender observes the matching digest (last chunk → `completed`). -/
def wSys4 : Session.Sys :=
  { sender := Core.onQRDataReceived wSc.hash wSc.metaParse wSys3.time wSys3.sender
      (some (Session.evalEnv wSc 0 3))
    receiver := wSys3.receiver
    time := wSys3.time + 1 }

/-- After the Receiver observes `completed` and delivers the file. -/
def wSys5 : Session.Sys :=
  { sender := wSys4.sender
    receiver := Core.onQRDataReceived wSc.hash wSc.metaParse wSys4.time wSys4.receiver
      (some (Session.doneEnv 4))
    time := wSys4.time + 1 }

/-! The noisy run of the same scenario.  Its first three steps coincide with
`wSys1`–`wSys3`; then the Receiver misreads the nonce of the already-processed
`ok_next` sighting (kind and body intact).  The fresh-looking nonce makes the
handler commit the pending chunk *without* any acknowledgement from the
Sender and re-pend the same chunk; the reported digest still matches, so the
Sender emits `completed` and the Receiver commits the chunk a second time. -/

/-- After the Receiver misreads the `ok_next` sighting's nonce as 9. -/
def cSys4 : Session.Sys :=
  { sender := wSys3.sender
    receiver := Core.onQRDataReceived wSc.hash wSc.metaParse wSys3.time wSys3.receiver
      (some ⟨(Session.okEnv wSc 0 2).ckTId, (Session.okEnv wSc 0 2).bd, 9⟩)
    time := wSys3.time + 1 }

/-- After the Sender observes the (matching) re-reported digest. -/
def cSys5 : Session.Sys :=
  { sender := Core.onQRDataReceived wSc.hash wSc.metaParse cSys4.time cSys4.sender
      (some (Session.evalEnv wSc 0 4))
    receiver := cSys4.receiver
    time := cSys4.time + 1 }

/-- After the Receiver observes `completed`: the single chunk was committed
twice, so the delivered stream is the file duplicated. -/
def cSys6 : Session.Sys :=
  { sender := cSys5.sender
    receiver := Core.onQRDataReceived wSc.hash wSc.metaParse cSys5.time cSys5.receiver
      (some (Session.doneEnv 5))
    time := cSys5.time + 1 }

/-- The file the noisy run delivers: the 4-byte source duplicated. -/
def cDeliv : Delivered := ⟨['f'], ['t'], [0, 1, 2, 3, 0, 1, 2, 3]⟩

/-! ### String and Base64 lemmas. -/

theorem dropWhile_eq_self_of_noWs {p : Char → Bool} {l : List Char}
    (h : ∀ x ∈ l, p x = false) : l.dropWhile p = l := by
  cases l with
  | nil => rfl
  | cons x xs => simp [List.dropWhile, h x (by simp)]

/-- Trimming a string that contains no whitespace is the identity. -/
theorem jsTrim_eq_self_of_noWs {l : List Char}
    (h : ∀ x ∈ l, isJsSpace x = false) : jsTrim l = l := by
  unfold jsTrim
  rw [dropWhile_eq_self_of_noWs h]
  rw [dropWhile_eq_self_of_noWs (by intro x hx; exact h x (List.mem_reverse.mp hx))]
  exact List.reverse_reverse l

@[simp] theorem jsTrim_nil : jsTrim [] = [] := rfl

theorem listGetD_pred {p : Char → Bool} :
    ∀ (l : List Char) (n : Nat), (∀ x ∈ l, p x = true) → p 'A' = true →
      p (listGetD l n) = true
  | [], _, _, hA => hA
  | x :: _, 0, h, _ => h x (by simp)
  | _ :: xs, n + 1, h, hA =>
      listGetD_pred xs n (fun x hx => h x (by simp [hx])) hA

theorem isJsSpace_b64Char (n : Nat) : isJsSpace (b64Char n) = false := by
  have := listGetD_pred (p := fun ch => !isJsSpace ch) b64Alphabet n
    (by decide) (by decide)
  simpa using this

theorem b64Char_ne_eq (n : Nat) : b64Char n ≠ '=' := by
  have := listGetD_pred (p := fun ch => decide (ch ≠ '=')) b64Alphabet n
    (by decide) (by decide)
  exact of_decide_eq_true this

@[simp] theorem b64Char_eq_eq_false (n : Nat) : (b64Char n = '=') = False := by
  simp [b64Char_ne_eq n]

theorem b64Index_b64Char : ∀ n, n < 64 → b64Index (b64Char n) = some n := by
  decide

theorem addMulDivSelf (k x y : Nat) (hk : 0 < k) (hy : y < k) : (x * k + y) / k = x := by
  rw [Nat.mul_comm x k, Nat.mul_add_div hk]
  simp [Nat.div_eq_of_lt hy]

theorem addMulModSelf (k x y : Nat) (hy : y < k) : (x * k + y) % k = y := by
  rw [Nat.mul_comm x k, Nat.mul_add_mod]
  exact Nat.mod_eq_of_lt hy

theorem noWs_base64EncodeChars :
    ∀ l, ∀ ch ∈ base64EncodeChars l, isJsSpace ch = false := by
  intro l
  induction l using base64EncodeChars.induct with
  | case1 => intro ch h; simp [base64EncodeChars] at h
  | case2 a =>
      intro ch h
      simp only [base64EncodeChars, List.mem_cons, List.not_mem_nil, or_false] at h
      rcases h with h | h | h | h <;> subst h <;>
        first | exact isJsSpace_b64Char _ | decide
  | case3 a b =>
      intro ch h
      simp only [base64EncodeChars, List.mem_cons, List.not_mem_nil, or_false] at h
      rcases h with h | h | h | h <;> subst h <;>
        first | exact isJsSpace_b64Char _ | decide
  | case4 a b c rest ih =>
      intro ch h
      simp only [base64EncodeChars, List.mem_cons] at h
      rcases h with h | h | h | h | h
      · subst h; exact isJsSpace_b64Char _
      · subst h; exact isJsSpace_b64Char _
      · subst h; exact isJsSpace_b64Char _
      · subst h; exact isJsSpace_b64Char _
      · exact ih ch h

/-- Base64 round-trip on valid byte lists. -/
theorem base64Decode_base64Encode :
    ∀ l : List Nat, (∀ x ∈ l, x < 256) →
      base64DecodeChars (base64EncodeChars l) = some l := by
  intro l
  induction l using base64EncodeChars.induct with
  | case1 => intro _; rfl
  | case2 a =>
      intro h
      have ha : a < 256 := h a (by simp)
      have h1 : a / 4 < 64 := by omega
      have h2 : a % 4 * 16 < 64 := by omega
      have e1 : a % 4 * 16 / 16 = a % 4 := Nat.mul_div_cancel _ (by norm_num)
      simp [base64EncodeChars, base64DecodeChars, b64Index_b64Char _ h1,
        b64Index_b64Char _ h2, e1]
      omega
  | case3 a b =>
      intro h
      have ha : a < 256 := h a (by simp)
      have hb : b < 256 := h b (by simp)
      have h1 : a / 4 < 64 := by omega
      have h2 : a % 4 * 16 + b / 16 < 64 := by omega
      have h3 : b % 16 * 4 < 64 := by omega
      have e1 : (a % 4 * 16 + b / 16) / 16 = a % 4 :=
        addMulDivSelf 16 _ _ (by norm_num) (by omega)
      have e2 : (a % 4 * 16 + b / 16) % 16 = b / 16 := addMulModSelf 16 _ _ (by omega)
      have e3 : b % 16 * 4 / 4 = b % 16 := Nat.mul_div_cancel _ (by norm_num)
      simp [base64EncodeChars, base64DecodeChars, b64Index_b64Char _ h1,
        b64Index_b64Char _ h2, b64Index_b64Char _ h3, e1, e2, e3]
      omega
  | case4 a b c rest ih =>
      intro h
      have ha : a < 256 := h a (by simp)
      have hb : b < 256 := h b (by simp)
      have hc : c < 256 := h c (by simp)
      have h1 : a / 4 < 64 := by omega
      have h2 : a % 4 * 16 + b / 16 < 64 := by omega
      have h3 : b % 16 * 4 + c / 64 < 64 := by omega
      have h4 : c % 64 < 64 := by omega
      have hrest := ih (fun x hx => h x (by simp [hx]))
      have e1 : (a % 4 * 16 + b / 16) / 16 = a % 4 :=
        addMulDivSelf 16 _ _ (by norm_num) (by omega)
      have e2 : (a % 4 * 16 + b / 16) % 16 = b / 16 := addMulModSelf 16 _ _ (by omega)
      have e3 : (b % 16 * 4 + c / 64) / 4 = b % 16 :=
        addMulDivSelf 4 _ _ (by norm_num) (by omega)
      have e4 : (b % 16 * 4 + c / 64) % 4 = c / 64 := addMulModSelf 4 _ _ (by omega)
      simp [base64EncodeChars, base64DecodeChars, b64Index_b64Char _ h1,
        b64Index_b64Char _ h2, b64Index_b64Char _ h3, b64Index_b64Char _ h4,
        hrest, e1, e2, e3, e4]
      omega

/-! ### Frame lemmas about the worker operations and the handler. -/

theorem FileWorker.commit_readMode (w : FileWorker) :
    w.writerCommitPendingChunk.readMode = w.readMode := by
  unfold FileWorker.writerCommitPendingChunk
  split
  · rfl
  · split <;> rfl

theorem Core.dispatch_lastReceivedDatetime (hash : List Char → List Char)
    (metaParse : List Char → Option MetaInfo) (now : Nat) (st : CoreState)
    (ct : ChunkType) (qd : List Char) :
    (Core.dispatch hash metaParse now st ct qd).lastReceivedDatetime =
      st.lastReceivedDatetime := by
  unfold Core.dispatch Core.updateQRImageSt Core.stopReceivingSt
  cases st.displayedView <;> cases ct <;>
    simp only [] <;>
    (try cases hw : st.fileWorker) <;>
    simp only [] <;>
    (try split) <;>
    (try split) <;>
    rfl

/-- Stale observation (same nonce as the last processed one): the handler
returns the state unchanged. -/
theorem Core.observe_stale (hash : List Char → List Char)
    (metaParse : List Char → Option MetaInfo) (now : Nat) (st : CoreState)
    (env : QREnvelope) (h : st.lastReceivedDatetime = some env.dt) :
    Core.onQRDataReceived hash metaParse now st (some env) = st := by
  obtain ⟨v, r, fw, ld, disp, dl⟩ := st
  simp only at h
  subst h
  cases r <;> simp [Core.onQRDataReceived]

/-- Fresh observation while running: the handler is the kind dispatch on the
state with the nonce recorded. -/
theorem Core.observe_fresh (hash : List Char → List Char)
    (metaParse : List Char → Option MetaInfo) (now : Nat) (st : CoreState)
    (env : QREnvelope) (hr : st.isRunning = true)
    (h : st.lastReceivedDatetime ≠ some env.dt) :
    Core.onQRDataReceived hash metaParse now st (some env) =
      Core.dispatch hash metaParse now { st with lastReceivedDatetime := some env.dt }
        (chunkTypeFromId env.ckTId) env.bd := by
  unfold Core.onQRDataReceived
  simp [hr, h]

/-! ### One lemma per live `(view, kind)` dispatch case, each giving the
handler's result as an explicit record. -/

theorem Core.send_mir_eq (hash : List Char → List Char)
    (mp : List Char → Option MetaInfo) (now : Nat) (st : CoreState) (w : FileWorker)
    (bd : List Char) (dt : Nat)
    (hv : st.displayedView = .sendFile) (hr : st.isRunning = true)
    (hw : st.fileWorker = some w) (hf : st.lastReceivedDatetime ≠ some dt) :
    Core.onQRDataReceived hash mp now st (some ⟨ChunkType.metaInfoReceived.id, bd, dt⟩) =
      { st with
        lastReceivedDatetime := some dt
        fileWorker := some (w.readNextChunk hash)
        displayed := Core.updateQRImage now .okNext (w.readNextChunk hash).lastChunkBase64 } := by
  rw [Core.observe_fresh hash mp now st _ hr hf]
  simp [Core.dispatch, chunkTypeFromId, ChunkType.id, hv, hw, Core.updateQRImageSt]

theorem Core.send_eval_match_last_eq (hash : List Char → List Char)
    (mp : List Char → Option MetaInfo) (now : Nat) (st : CoreState) (w : FileWorker)
    (d : List Char) (dt : Nat)
    (hv : st.displayedView = .sendFile) (hr : st.isRunning = true)
    (hw : st.fileWorker = some w) (hf : st.lastReceivedDatetime ≠ some dt)
    (hacc : some d = w.lastChunkSha256) (hlast : w.curChunk = w.fileChunks) :
    Core.onQRDataReceived hash mp now st (some ⟨ChunkType.evalSha256.id, d, dt⟩) =
      { st with
        lastReceivedDatetime := some dt
        displayed := some ⟨ChunkType.completed.id, [], now⟩ } := by
  rw [Core.observe_fresh hash mp now st _ hr hf]
  simp [Core.dispatch, chunkTypeFromId, ChunkType.id, hv, hw, hacc, hlast, Core.updateQRImageSt, Core.updateQRImage]

theorem Core.send_eval_match_next_eq (hash : List Char → List Char)
    (mp : List Char → Option MetaInfo) (now : Nat) (st : CoreState) (w : FileWorker)
    (d : List Char) (dt : Nat)
    (hv : st.displayedView = .sendFile) (hr : st.isRunning = true)
    (hw : st.fileWorker = some w) (hf : st.lastReceivedDatetime ≠ some dt)
    (hacc : some d = w.lastChunkSha256) (hnext : ¬ w.curChunk = w.fileChunks) :
    Core.onQRDataReceived hash mp now st (some ⟨ChunkType.evalSha256.id, d, dt⟩) =
      { st with
        lastReceivedDatetime := some dt
        fileWorker := some (w.readNextChunk hash)
        displayed := Core.updateQRImage now .okNext (w.readNextChunk hash).lastChunkBase64 } := by
  rw [Core.observe_fresh hash mp now st _ hr hf]
  simp [Core.dispatch, chunkTypeFromId, ChunkType.id, hv, hw, hacc, hnext, Core.updateQRImageSt]

theorem Core.send_eval_mismatch_eq (hash : List Char → List Char)
    (mp : List Char → Option MetaInfo) (now : Nat) (st : CoreState) (w : FileWorker)
    (d : List Char) (dt : Nat)
    (hv : st.displayedView = .sendFile) (hr : st.isRunning = true)
    (hw : st.fileWorker = some w) (hf : st.lastReceivedDatetime ≠ some dt)
    (hacc : ¬ some d = w.lastChunkSha256) :
    Core.onQRDataReceived hash mp now st (some ⟨ChunkType.evalSha256.id, d, dt⟩) =
      { st with
        lastReceivedDatetime := some dt
        displayed := Core.updateQRImage now .invalidSha256 w.lastChunkBase64 } := by
  rw [Core.observe_fresh hash mp now st _ hr hf]
  simp [Core.dispatch, chunkTypeFromId, ChunkType.id, hv, hw, hacc, Core.updateQRImageSt]

theorem Core.recv_meta_eq (hash : List Char → List Char)
    (mp : List Char → Option MetaInfo) (now : Nat) (st : CoreState) (m : MetaInfo)
    (bd : List Char) (dt : Nat)
    (hv : st.displayedView = .receiveFile) (hr : st.isRunning = true)
    (hw : st.fileWorker = none) (hf : st.lastReceivedDatetime ≠ some dt)
    (hp : mp bd = some m) :
    Core.onQRDataReceived hash mp now st (some ⟨ChunkType.metaInfo.id, bd, dt⟩) =
      { st with
        lastReceivedDatetime := some dt
        fileWorker := some (FileWorker.createWriter m)
        displayed := some ⟨ChunkType.metaInfoReceived.id, [], now⟩ } := by
  rw [Core.observe_fresh hash mp now st _ hr hf]
  simp [Core.dispatch, chunkTypeFromId, ChunkType.id, hv, hw, hp, Core.updateQRImageSt, Core.updateQRImage]

theorem Core.recv_okNext_eq (hash : List Char → List Char)
    (mp : List Char → Option MetaInfo) (now : Nat) (st : CoreState) (w : FileWorker)
    (bs : List Nat) (wf : List Char) (dt : Nat)
    (hv : st.displayedView = .receiveFile) (hr : st.isRunning = true)
    (hw : st.fileWorker = some w) (hm : w.readMode = false)
    (hd : Utils.bufferArrayFromBase64 (jsTrim wf) = some bs)
    (hf : st.lastReceivedDatetime ≠ some dt) :
    Core.onQRDataReceived hash mp now st (some ⟨ChunkType.okNext.id, wf, dt⟩) =
      { st with
        lastReceivedDatetime := some dt
        fileWorker := some { w.writerCommitPendingChunk with
          lastChunkBlob := some bs
          lastChunkBase64 := some wf
          lastChunkSha256 := some (Utils.sha256 hash wf) }
        displayed := some ⟨ChunkType.evalSha256.id, jsTrim (Utils.sha256 hash wf), now⟩ } := by
  rw [Core.observe_fresh hash mp now st _ hr hf]
  have hm1 : w.writerCommitPendingChunk.readMode = false := by
    rw [FileWorker.commit_readMode, hm]
  simp [Core.dispatch, chunkTypeFromId, ChunkType.id, hv, hw, FileWorker.writerSetPendingChunk, hm1, hd,
    Core.updateQRImageSt, Core.updateQRImage]

theorem Core.recv_invalid_eq (hash : List Char → List Char)
    (mp : List Char → Option MetaInfo) (now : Nat) (st : CoreState) (w : FileWorker)
    (bs : List Nat) (wf : List Char) (dt : Nat)
    (hv : st.displayedView = .receiveFile) (hr : st.isRunning = true)
    (hw : st.fileWorker = some w) (hm : w.readMode = false)
    (hd : Utils.bufferArrayFromBase64 (jsTrim wf) = some bs)
    (hf : st.lastReceivedDatetime ≠ some dt) :
    Core.onQRDataReceived hash mp now st (some ⟨ChunkType.invalidSha256.id, wf, dt⟩) =
      { st with
        lastReceivedDatetime := some dt
        fileWorker := some { w with
          lastChunkBlob := some bs
          lastChunkBase64 := some wf
          lastChunkSha256 := some (Utils.sha256 hash wf) }
        displayed := some ⟨ChunkType.evalSha256.id, jsTrim (Utils.sha256 hash wf), now⟩ } := by
  rw [Core.observe_fresh hash mp now st _ hr hf]
  simp [Core.dispatch, chunkTypeFromId, ChunkType.id, hv, hw, FileWorker.writerSetPendingChunk, hm, hd,
    Core.updateQRImageSt, Core.updateQRImage]

theorem Core.recv_completed_eq (hash : List Char → List Char)
    (mp : List Char → Option MetaInfo) (now : Nat) (st : CoreState) (w : FileWorker)
    (dt : Nat)
    (hv : st.displayedView = .receiveFile) (hr : st.isRunning = true)
    (hw : st.fileWorker = some w) (hm : w.readMode = false)
    (hf : st.lastReceivedDatetime ≠ some dt) :
    Core.onQRDataReceived hash mp now st (some ⟨ChunkType.completed.id, [], dt⟩) =
      { st with
        lastReceivedDatetime := some dt
        isRunning := false
        fileWorker := none
        displayed := none
        delivered := some ⟨w.writerCommitPendingChunk.inputFileName,
          w.writerCommitPendingChunk.inputFileType,
          w.writerCommitPendingChunk.writerBuffer.flatten⟩ } := by
  rw [Core.observe_fresh hash mp now st _ hr hf]
  have hm1 : w.writerCommitPendingChunk.readMode = false := by
    rw [FileWorker.commit_readMode, hm]
  simp [Core.dispatch, chunkTypeFromId, ChunkType.id, hv, hw, FileWorker.writerCreateDownloadFile, hm1,
    Core.stopReceivingSt]

/-! ### Claims. -/

/-- C2 (code-bug evidence): with `file_size = 0` (so `chunk_count = 0`), after
the Sender observes `meta_info_received` it does *not* display the `completed`
envelope.  `readNextChunk` nulls the cached wire form (the cursor is already
at `fileChunks`), and `_updateQRImage(okNext, null)` then clears the shown QR
image, so the Sender displays nothing at all and the Receiver can never
finalize. -/
theorem c2_empty_file_sender_displays_nothing :
    c2Worker.fileChunks = 0 ∧
    (Core.onQRDataReceived nullHash noParse 5 c2St
        (some ⟨ChunkType.metaInfoReceived.id, [], 3⟩)).displayed = none := by
  constructor
  · rfl
  · rfl

/-- C3 counterexample: an observation whose nonce (3) is strictly *below* the
last observed nonce (5) is not dropped without state change — it overwrites
the stored nonce (and is dispatched normally). -/
theorem c3_counterexample :
    Core.onQRDataReceived nullHash noParse 7 c3St (some c3Env) ≠ c3St := by
  decide

/-- C3 (amended): only an observation whose nonce is *equal* to the last
observed nonce on the same receiving side is silently dropped and causes no
state change; an observation with a strictly smaller nonce is processed (and
overwrites the stored nonce). -/
theorem c3_equal_nonce_no_state_change (hash : List Char → List Char)
    (mp : List Char → Option MetaInfo) (now : Nat) (st : CoreState) (env : QREnvelope)
    (h : st.lastReceivedDatetime = some env.dt) :
    Core.onQRDataReceived hash mp now st (some env) = st :=
  Core.observe_stale hash mp now st env h

theorem c3_witness :
    c3wSt.lastReceivedDatetime = some c3wEnv.dt ∧
    Core.onQRDataReceived nullHash noParse 9 c3wSt (some c3wEnv) = c3wSt :=
  ⟨rfl, c3_equal_nonce_no_state_change nullHash noParse 9 c3wSt c3wEnv rfl⟩

/-- C4: both peers digest the Base64 wire-form *string*: the Sender's
`readNextChunk` stores the Base64 encoding of the chunk's raw bytes and the
SHA-256 of that encoded text, the Receiver's `writerSetPendingChunk` stores
the SHA-256 of the wire form exactly as received, and the Sender's acceptance
test in the `eval_sha256` dispatch is exact string equality between the
reported digest and the cached one. -/
theorem c4_digest_over_wire_form (hash : List Char → List Char) :
    (∀ (w : FileWorker) (file : List Nat), w.readMode = true → w.inputFile = some file →
      w.curChunk < w.fileChunks →
      (w.readNextChunk hash).lastChunkBase64 =
        some (Utils.blobAsBase64 ((file.drop (w.curChunk * w.chunkSize)).take w.chunkSize)) ∧
      (w.readNextChunk hash).lastChunkSha256 =
        some (Utils.sha256 hash
          (Utils.blobAsBase64 ((file.drop (w.curChunk * w.chunkSize)).take w.chunkSize)))) ∧
    (∀ (w w2 : FileWorker) (b64 : List Char),
      w.writerSetPendingChunk hash b64 = some w2 → w.readMode = false →
      w2.lastChunkSha256 = some (Utils.sha256 hash b64)) ∧
    (∀ (mp : List Char → Option MetaInfo) (now : Nat) (st : CoreState) (w : FileWorker)
      (d b64 : List Char), st.displayedView = .sendFile → st.fileWorker = some w →
      w.lastChunkBase64 = some b64 →
      ((Core.dispatch hash mp now st .evalSha256 d).displayed =
          some ⟨ChunkType.invalidSha256.id, jsTrim b64, now⟩ ↔
        ¬ some d = w.lastChunkSha256)) := by
  refine ⟨?_, ?_, ?_⟩
  · intro w file hm hfile hlt
    simp [FileWorker.readNextChunk, hm, hfile, Nat.not_le.mpr hlt]
  · intro w w2 b64 h hm
    unfold FileWorker.writerSetPendingChunk at h
    rw [hm] at h
    simp only [Bool.false_eq_true, if_false] at h
    cases hd : Utils.bufferArrayFromBase64 (jsTrim b64) with
    | none => rw [hd] at h; cases h
    | some bytes =>
        rw [hd] at h
        injection h with h2
        subst h2
        rfl
  · intro mp now st w d b64 hv hw hb
    by_cases hacc : some d = w.lastChunkSha256
    · simp only [Core.dispatch, hv, hw, hacc, if_true, if_pos rfl]
      constructor
      · intro hdisp
        by_cases hlast : w.curChunk = w.fileChunks
        · simp [hlast, Core.updateQRImageSt, Core.updateQRImage, ChunkType.id] at hdisp
        · simp only [hlast, if_false, Core.updateQRImageSt, Core.updateQRImage] at hdisp
          cases hcache : (w.readNextChunk hash).lastChunkBase64 with
          | none => rw [hcache] at hdisp; cases hdisp
          | some b' =>
              rw [hcache] at hdisp
              simp [ChunkType.id] at hdisp
      · intro hcontra
        exact absurd trivial hcontra
    · simp [Core.dispatch, hv, hw, hacc, hb, Core.updateQRImageSt, Core.updateQRImage]

theorem c4_witness :
    ((c4Reader.readNextChunk nullHash).lastChunkSha256 =
      some (Utils.sha256 nullHash (Utils.blobAsBase64
        ((([0, 1, 2, 3, 4] : List Nat).drop (c4Reader.curChunk * c4Reader.chunkSize)).take
          c4Reader.chunkSize)))) ∧
    ((Core.dispatch nullHash noParse 9 c4SendSt .evalSha256 ['z']).displayed =
        some ⟨ChunkType.invalidSha256.id, jsTrim "AAECAw==".toList, 9⟩ ↔
      ¬ some ['z'] = c4ReaderAfter1.lastChunkSha256) :=
  ⟨((c4_digest_over_wire_form nullHash).1 c4Reader [0, 1, 2, 3, 4] rfl rfl (by decide)).2,
   (c4_digest_over_wire_form nullHash).2.2 noParse 9 c4SendSt c4ReaderAfter1 ['z']
     "AAECAw==".toList rfl rfl (by decide)⟩

/-- C5: in the Collecting state, `ok_next(w)` first commits the pending chunk
(if any) via `writerCommitPendingChunk` and then stores `w` as the new pending
chunk, replying `eval_sha256` with the digest of `w`; `invalid_sha256(w)`
overwrites the pending slot *without* committing (the buffer stays as it was)
and replies `eval_sha256` likewise. -/
theorem c5_ok_next_commits_invalid_discards (hash : List Char → List Char)
    (mp : List Char → Option MetaInfo) (now : Nat) (st : CoreState) (w : FileWorker)
    (bs : List Nat) (wf : List Char) (dt : Nat)
    (hv : st.displayedView = .receiveFile) (hr : st.isRunning = true)
    (hw : st.fileWorker = some w) (hm : w.readMode = false)
    (hd : Utils.bufferArrayFromBase64 (jsTrim wf) = some bs)
    (hf : st.lastReceivedDatetime ≠ some dt) :
    Core.onQRDataReceived hash mp now st (some ⟨ChunkType.okNext.id, wf, dt⟩) =
      { st with
        lastReceivedDatetime := some dt
        fileWorker := some { w.writerCommitPendingChunk with
          lastChunkBlob := some bs
          lastChunkBase64 := some wf
          lastChunkSha256 := some (Utils.sha256 hash wf) }
        displayed := some ⟨ChunkType.evalSha256.id, jsTrim (Utils.sha256 hash wf), now⟩ } ∧
    Core.onQRDataReceived hash mp now st (some ⟨ChunkType.invalidSha256.id, wf, dt⟩) =
      { st with
        lastReceivedDatetime := some dt
        fileWorker := some { w with
          lastChunkBlob := some bs
          lastChunkBase64 := some wf
          lastChunkSha256 := some (Utils.sha256 hash wf) }
        displayed := some ⟨ChunkType.evalSha256.id, jsTrim (Utils.sha256 hash wf), now⟩ } :=
  ⟨Core.recv_okNext_eq hash mp now st w bs wf dt hv hr hw hm hd hf,
   Core.recv_invalid_eq hash mp now st w bs wf dt hv hr hw hm hd hf⟩

theorem c5_witness :
    Core.onQRDataReceived nullHash noParse 9 c5St
        (some ⟨ChunkType.okNext.id, "BAUGBw==".toList, 4⟩) =
      { c5St with
        lastReceivedDatetime := some 4
        fileWorker := some { c5W.writerCommitPendingChunk with
          lastChunkBlob := some [4, 5, 6, 7]
          lastChunkBase64 := some "BAUGBw==".toList
          lastChunkSha256 := some (Utils.sha256 nullHash "BAUGBw==".toList) }
        displayed := some ⟨ChunkType.evalSha256.id,
          jsTrim (Utils.sha256 nullHash "BAUGBw==".toList), 9⟩ } :=
  (c5_ok_next_commits_invalid_discards nullHash noParse 9 c5St c5W [4, 5, 6, 7]
    "BAUGBw==".toList 4 rfl rfl rfl rfl (by decide) (by decide)).1

/-- C6: on `eval_sha256(d)` with `d` different from the cached digest, the
Sender redisplays the cached wire form inside an `invalid_sha256` envelope —
its body is byte-identical to the body an `ok_next` emission of the same cache
carries — and the Sender's worker (cursor and cached chunk) is unchanged. -/
theorem c6_mismatch_redisplays_cached_wire_form (hash : List Char → List Char)
    (mp : List Char → Option MetaInfo) (now : Nat) (st : CoreState) (w : FileWorker)
    (b64 d : List Char) (dt : Nat)
    (hv : st.displayedView = .sendFile) (hr : st.isRunning = true)
    (hw : st.fileWorker = some w) (hb : w.lastChunkBase64 = some b64)
    (hacc : ¬ some d = w.lastChunkSha256) (hf : st.lastReceivedDatetime ≠ some dt) :
    Core.onQRDataReceived hash mp now st (some ⟨ChunkType.evalSha256.id, d, dt⟩) =
      { st with
        lastReceivedDatetime := some dt
        displayed := some ⟨ChunkType.invalidSha256.id, jsTrim b64, now⟩ } ∧
    (Core.onQRDataReceived hash mp now st
        (some ⟨ChunkType.evalSha256.id, d, dt⟩)).displayed.map QREnvelope.bd =
      (Core.updateQRImage now .okNext (some b64)).map QREnvelope.bd := by
  have h := Core.send_eval_mismatch_eq hash mp now st w d dt hv hr hw hf hacc
  rw [hb] at h
  exact ⟨h, by rw [h]; rfl⟩

theorem c6_witness :
    Core.onQRDataReceived nullHash noParse 9 c6St
        (some ⟨ChunkType.evalSha256.id, ['z'], 4⟩) =
      { c6St with
        lastReceivedDatetime := some 4
        displayed := some ⟨ChunkType.invalidSha256.id, jsTrim "AAECAw==".toList, 9⟩ } ∧
    (Core.onQRDataReceived nullHash noParse 9 c6St
        (some ⟨ChunkType.evalSha256.id, ['z'], 4⟩)).displayed.map QREnvelope.bd =
      (Core.updateQRImage 9 .okNext (some "AAECAw==".toList)).map QREnvelope.bd :=
  c6_mismatch_redisplays_cached_wire_form nullHash noParse 9 c6St c4ReaderAfter1
    "AAECAw==".toList ['z'] 4 rfl rfl rfl (by decide) (by decide) (by decide)

/-- C7 counterexample: a `meta_info` whose metadata is invalid (empty
`file_name`, `chunk_size = 0`, `chunk_count` inconsistent with
`file_size`/`chunk_size`) *does* create a session: the Receiver builds a
worker from it and leaves Awaiting-meta by replying `meta_info_received`. -/
theorem c7_counterexample :
    (Core.onQRDataReceived nullHash c7Parse 1 c7St (some c7Env)).fileWorker ≠ none ∧
    (Core.onQRDataReceived nullHash c7Parse 1 c7St (some c7Env)).displayed =
      some ⟨ChunkType.metaInfoReceived.id, [], 1⟩ := by
  decide

/-- C7 (amended): `createWriter` performs no metadata validation — the
Receiver creates a session from *every* successfully parsed `meta_info` body,
valid or not, and replies `meta_info_received`; the only guards are that no
session exists yet and that `JSON.parse` succeeds. -/
theorem c7_no_metadata_validation (hash : List Char → List Char)
    (mp : List Char → Option MetaInfo) (now : Nat) (st : CoreState) (m : MetaInfo)
    (bd : List Char) (dt : Nat)
    (hv : st.displayedView = .receiveFile) (hr : st.isRunning = true)
    (hw : st.fileWorker = none) (hf : st.lastReceivedDatetime ≠ some dt)
    (hp : mp bd = some m) :
    Core.onQRDataReceived hash mp now st (some ⟨ChunkType.metaInfo.id, bd, dt⟩) =
      { st with
        lastReceivedDatetime := some dt
        fileWorker := some (FileWorker.createWriter m)
        displayed := some ⟨ChunkType.metaInfoReceived.id, [], now⟩ } :=
  Core.recv_meta_eq hash mp now st m bd dt hv hr hw hf hp

theorem c7_witness :
    Core.onQRDataReceived nullHash c7Parse 9 c7wSt (some ⟨ChunkType.metaInfo.id, ['y'], 2⟩) =
      { c7wSt with
        lastReceivedDatetime := some 2
        fileWorker := some (FileWorker.createWriter c7Meta)
        displayed := some ⟨ChunkType.metaInfoReceived.id, [], 9⟩ } :=
  c7_no_metadata_validation nullHash c7Parse 9 c7wSt c7Meta ['y'] 2 rfl rfl rfl
    (by decide) rfl

/-- C8 counterexample: the observed body is *not* trimmed before kind-specific
processing.  For an `ok_next` body carrying surrounding whitespace, the stored
pending digest is the digest of the untrimmed body, which differs from the
digest of the trimmed body (witnessed with a digest collaborator that exposes
its input). -/
theorem c8_counterexample :
    ((Core.onQRDataReceived tagHash noParse 9 c8St (some c8Env)).fileWorker.map
        FileWorker.lastChunkSha256) =
      some (some (Utils.sha256 tagHash c8Env.bd)) ∧
    Utils.sha256 tagHash c8Env.bd ≠ Utils.sha256 tagHash (jsTrim c8Env.bd) := by
  decide

/-- C8 (amended): the codec trims the body on *emission* only
(`_updateQRImage` stores `input.trim()`); on observation the body is passed to
kind-specific processing untrimmed — the Receiver decodes the trimmed wire
form into bytes but caches the untrimmed body and computes the digest over the
untrimmed body. -/
theorem c8_trim_on_emission_only (hash : List Char → List Char)
    (mp : List Char → Option MetaInfo) (now : Nat) (st : CoreState) (w : FileWorker)
    (bs : List Nat) (wf : List Char) (dt : Nat)
    (hv : st.displayedView = .receiveFile) (hr : st.isRunning = true)
    (hw : st.fileWorker = some w) (hm : w.readMode = false)
    (hd : Utils.bufferArrayFromBase64 (jsTrim wf) = some bs)
    (hf : st.lastReceivedDatetime ≠ some dt) :
    (∀ (t : ChunkType) (s : List Char) (n : Nat),
      Core.updateQRImage n t (some s) = some ⟨t.id, jsTrim s, n⟩) ∧
    (Core.onQRDataReceived hash mp now st
        (some ⟨ChunkType.okNext.id, wf, dt⟩)).fileWorker =
      some { w.writerCommitPendingChunk with
        lastChunkBlob := some bs
        lastChunkBase64 := some wf
        lastChunkSha256 := some (Utils.sha256 hash wf) } := by
  refine ⟨fun t s n => rfl, ?_⟩
  rw [Core.recv_okNext_eq hash mp now st w bs wf dt hv hr hw hm hd hf]

theorem c8_witness :
    (Core.onQRDataReceived tagHash noParse 9 c8wSt
        (some ⟨ChunkType.okNext.id, "BAUGBw==".toList, 7⟩)).fileWorker =
      some { c8W.writerCommitPendingChunk with
        lastChunkBlob := some [4, 5, 6, 7]
        lastChunkBase64 := some "BAUGBw==".toList
        lastChunkSha256 := some (Utils.sha256 tagHash "BAUGBw==".toList) } :=
  (c8_trim_on_emission_only tagHash noParse 9 c8wSt c8W [4, 5, 6, 7] "BAUGBw==".toList 7
    rfl rfl rfl rfl (by decide) (by decide)).2

/-- C9: every well-formed observation records its nonce in
`_lastReceivedDatetime` before kind-specific handling, in every branch
(including ignored ones); and whenever the nonce differs from the stored one —
in particular when two distinct envelopes alternate — the observation is fully
dispatched rather than deduplicated. -/
theorem c9_nonce_always_recorded (hash : List Char → List Char)
    (mp : List Char → Option MetaInfo) (now : Nat) (st : CoreState) (env : QREnvelope)
    (hr : st.isRunning = true) :
    (Core.onQRDataReceived hash mp now st (some env)).lastReceivedDatetime = some env.dt ∧
    (st.lastReceivedDatetime ≠ some env.dt →
      Core.onQRDataReceived hash mp now st (some env) =
        Core.dispatch hash mp now { st with lastReceivedDatetime := some env.dt }
          (chunkTypeFromId env.ckTId) env.bd) := by
  constructor
  · by_cases h : st.lastReceivedDatetime = some env.dt
    · rw [Core.observe_stale hash mp now st env h]; exact h
    · rw [Core.observe_fresh hash mp now st env hr h,
        Core.dispatch_lastReceivedDatetime]
  · intro h
    exact Core.observe_fresh hash mp now st env hr h

theorem c9_witness :
    (Core.onQRDataReceived nullHash noParse 3 c9St (some c9Env)).lastReceivedDatetime =
      some c9Env.dt :=
  (c9_nonce_always_recorded nullHash noParse 3 c9St c9Env rfl).1

/-- C10: committing with an empty pending slot (or on a reader-mode worker) is
a no-op on the whole worker, and a `completed` envelope observed with no
pending chunk finalizes exactly the chunks already committed (the delivered
bytes are the concatenation of the existing buffer). -/
theorem c10_commit_empty_noop (hash : List Char → List Char)
    (mp : List Char → Option MetaInfo) (now : Nat) (st : CoreState) (w : FileWorker)
    (dt : Nat) (hempty : w.readMode = true ∨ w.lastChunkBlob = none) :
    w.writerCommitPendingChunk = w ∧
    (st.displayedView = .receiveFile → st.isRunning = true → st.fileWorker = some w →
      w.readMode = false → st.lastReceivedDatetime ≠ some dt →
      Core.onQRDataReceived hash mp now st (some ⟨ChunkType.completed.id, [], dt⟩) =
        { st with
          lastReceivedDatetime := some dt
          isRunning := false
          fileWorker := none
          displayed := none
          delivered := some ⟨w.inputFileName, w.inputFileType,
            w.writerBuffer.flatten⟩ }) := by
  have hnoop : w.writerCommitPendingChunk = w := by
    unfold FileWorker.writerCommitPendingChunk
    rcases hempty with h | h
    · rw [h]; rfl
    · rw [h]
      split
      · rfl
      · rfl
  refine ⟨hnoop, ?_⟩
  intro hv hr hw hm hf
  rw [Core.recv_completed_eq hash mp now st w dt hv hr hw hm hf, hnoop]

theorem c10_witness :
    c10W.writerCommitPendingChunk = c10W ∧
    Core.onQRDataReceived nullHash noParse 9 c10St (some ⟨ChunkType.completed.id, [], 3⟩) =
      { c10St with
        lastReceivedDatetime := some 3
        isRunning := false
        fileWorker := none
        displayed := none
        delivered := some ⟨c10W.inputFileName, c10W.inputFileType,
          c10W.writerBuffer.flatten⟩ } :=
  ⟨(c10_commit_empty_noop nullHash noParse 9 c10St c10W 3 (Or.inr rfl)).1,
   (c10_commit_empty_noop nullHash noParse 9 c10St c10W 3 (Or.inr rfl)).2 rfl rfl rfl rfl
     (by decide)⟩

/-! ### Session lemmas (for the end-to-end claim). -/

theorem jsTrim_blobAsBase64 (l : List Nat) :
    jsTrim (Utils.blobAsBase64 l) = Utils.blobAsBase64 l := by
  have h := jsTrim_eq_self_of_noWs (noWs_base64EncodeChars l)
  unfold Utils.blobAsBase64
  rw [h, h]

theorem jsTrim_sha256 (hash : List Char → List Char)
    (hh : ∀ s, ∀ ch ∈ hash s, isJsSpace ch = false) (msg : List Char) :
    jsTrim (Utils.sha256 hash msg) = Utils.sha256 hash msg := by
  have h := jsTrim_eq_self_of_noWs (hh msg)
  unfold Utils.sha256
  rw [h, h]

namespace Session

theorem jsTrim_wire (sc : Scenario) (i : Nat) : jsTrim (wire sc i) = wire sc i :=
  jsTrim_blobAsBase64 (chunkAt sc i)

theorem jsTrim_sha (sc : Scenario)
    (hh : ∀ s, ∀ ch ∈ sc.hash s, isJsSpace ch = false) (i : Nat) :
    jsTrim (sha sc i) = sha sc i :=
  jsTrim_sha256 sc.hash hh (wire sc i)

theorem decode_wire (sc : Scenario) (hb : ∀ b ∈ sc.bytes, b < 256) (i : Nat) :
    Utils.bufferArrayFromBase64 (jsTrim (wire sc i)) = some (chunkAt sc i) := by
  rw [jsTrim_wire]
  unfold wire Utils.blobAsBase64 Utils.bufferArrayFromBase64
  rw [jsTrim_eq_self_of_noWs (noWs_base64EncodeChars _)]
  apply base64Decode_base64Encode
  intro x hx
  exact hb x (List.drop_subset _ _ (List.take_subset _ _ hx))

theorem le_ceilDiv_mul (m c : Nat) (hc : 0 < c) : m ≤ FileWorker.jsCeilDiv m c * c := by
  unfold FileWorker.jsCeilDiv
  have h1 := Nat.div_add_mod (m + c - 1) c
  have h2 : (m + c - 1) % c < c := Nat.mod_lt _ hc
  rw [Nat.mul_comm]
  omega

theorem flatten_take_chunks (bytes : List Nat) (c : Nat) :
    ∀ j, ((List.range j).map (fun i => (bytes.drop (i * c)).take c)).flatten =
      bytes.take (j * c) := by
  intro j
  induction j with
  | zero => simp
  | succ n ih =>
      rw [List.range_succ, List.map_append, List.flatten_append, ih]
      simp only [List.map_cons, List.map_nil, List.flatten_cons, List.flatten_nil,
        List.append_nil]
      rw [← List.take_add, Nat.succ_mul]

theorem flatten_chunks (bytes : List Nat) (c : Nat) (hc : 0 < c) :
    ((List.range (FileWorker.jsCeilDiv bytes.length c)).map
      (fun i => (bytes.drop (i * c)).take c)).flatten = bytes := by
  rw [flatten_take_chunks]
  exact List.take_of_length_le (le_ceilDiv_mul _ _ hc)

/-- `senderW0` written out as a record literal. -/
theorem senderW0_eq (sc : Scenario) :
    senderW0 sc =
      { readMode := true
        inputFile := some sc.bytes
        chunkSize := sc.chunkSize
        inputFileType := (m0 sc).fileType
        inputFileName := sc.fileName
        fileSize := sc.bytes.length
        fileChunks := K sc
        curChunk := 0
        lastChunkBlob := none
        lastChunkBase64 := none
        lastChunkSha256 := none
        writerBuffer := [] } := by
  simp [senderW0, FileWorker.createReader, FileWorker.updateChunkSize, K, m0]

/-- `recvW0` written out as a record literal. -/
theorem recvW0_eq (sc : Scenario) :
    recvW0 sc =
      { readMode := false
        inputFile := none
        chunkSize := sc.chunkSize
        inputFileType := (m0 sc).fileType
        inputFileName := sc.fileName
        fileSize := sc.bytes.length
        fileChunks := K sc
        curChunk := 0
        lastChunkBlob := none
        lastChunkBase64 := none
        lastChunkSha256 := none
        writerBuffer := [] } := by
  simp [recvW0, FileWorker.createWriter, m0]

theorem metaInfo_senderW0 (sc : Scenario) :
    (senderW0 sc).metaInfo = some (m0 sc) := by
  rw [senderW0_eq]
  simp [FileWorker.metaInfo, m0]

theorem readNext_senderW0_empty (sc : Scenario) (h0 : K sc = 0) :
    (senderW0 sc).readNextChunk sc.hash = senderW0 sc := by
  rw [senderW0_eq]
  simp [FileWorker.readNextChunk, h0]

theorem readNext_senderW0_first (sc : Scenario) (h1 : 1 ≤ K sc) :
    (senderW0 sc).readNextChunk sc.hash = senderC sc 0 := by
  have hne : ¬ (0 ≥ K sc) := by omega
  simp [senderC, senderW0_eq, FileWorker.readNextChunk, hne, chunkAt, wire, sha]

theorem readNext_senderC (sc : Scenario) (n : Nat) (hlt : n + 1 < K sc) :
    (senderC sc n).readNextChunk sc.hash = senderC sc (n + 1) := by
  have hne : ¬ (n + 1 ≥ K sc) := by omega
  simp [senderC, senderW0_eq, FileWorker.readNextChunk, hne, chunkAt, wire, sha]

theorem commit_recvW0 (sc : Scenario) :
    (recvW0 sc).writerCommitPendingChunk = recvW0 sc := by
  rw [recvW0_eq]
  rfl

theorem commit_recvWP (sc : Scenario) (p : Nat) :
    (recvWP sc p).writerCommitPendingChunk =
      { recvW0 sc with
        writerBuffer := (List.range (p + 1)).map (chunkAt sc)
        curChunk := p + 1 } := by
  simp [recvWP, recvW0_eq, FileWorker.writerCommitPendingChunk, List.range_succ]

theorem recvW0_readMode (sc : Scenario) : (recvW0 sc).readMode = false := by
  rw [recvW0_eq]

theorem recvWP_readMode (sc : Scenario) (p : Nat) : (recvWP sc p).readMode = false := by
  simp [recvWP, recvW0_eq]

theorem senderW0_lastB64 (sc : Scenario) : (senderW0 sc).lastChunkBase64 = none := by
  rw [senderW0_eq]

theorem senderC_fileChunks (sc : Scenario) (n : Nat) :
    (senderC sc n).fileChunks = K sc := by
  simp [senderC, senderW0_eq]

theorem senderC_curChunk (sc : Scenario) (n : Nat) :
    (senderC sc n).curChunk = n + 1 := rfl

theorem flatten_chunks_sc (sc : Scenario) (hc : 0 < sc.chunkSize) :
    ((List.range (K sc)).map (chunkAt sc)).flatten = sc.bytes := by
  have h : (List.range (K sc)).map (chunkAt sc) =
      (List.range (K sc)).map
        (fun i => (sc.bytes.drop (i * sc.chunkSize)).take sc.chunkSize) := rfl
  rw [h]
  exact flatten_chunks sc.bytes sc.chunkSize hc

theorem observe_not_running (hash : List Char → List Char)
    (mp : List Char → Option MetaInfo) (now : Nat) (st : CoreState)
    (raw : Option QREnvelope) (h : st.isRunning = false) :
    Core.onQRDataReceived hash mp now st raw = st := by
  unfold Core.onQRDataReceived
  simp [h]

/-- The invariant is preserved by every channel step. -/
theorem step_preserves (sc : Scenario) (hv : Valid sc) {sys sys' : Sys}
    (hI : Inv sc sys) (hs : Step sc sys sys') : Inv sc sys' := by
  obtain ⟨Hb, Hc, Hh, Hm⟩ := hv
  cases hs with
  | senderObs env hdisp =>
      rcases hI with ⟨hS, hR, ht⟩ | ⟨nM, hS, hR, h1, h2⟩ | ⟨hK, nM, hS, hR, h1, h2⟩ |
        ⟨hK, nM, a, hS, hR, h1, h2, h3⟩ | ⟨p, aPrev, b, a, hp, hS, hR, h1, h2, h3⟩ |
        ⟨p, sl, a, b, hp, hS, hR, h1, h2, h3⟩ | ⟨hK, aPrev, b, a2, hS, hR, h1, h2, h3⟩ |
        ⟨a2, sl, hS, hR, h1, h2⟩
      · -- ph0: receiver shows nothing, no sender observation possible
        rw [hR] at hdisp
        exact absurd hdisp (by simp [recvRun])
      · -- ph1: the acknowledgement is fresh; the Sender produces chunk 0 (or
        -- clears the image when the file is empty)
        rw [hR] at hdisp
        simp only [recvRun] at hdisp
        injection hdisp with henv
        subst henv
        rw [hS, hR]
        simp only [mirEnv]
        rw [Core.send_mir_eq sc.hash sc.metaParse sys.time _ (senderW0 sc) [] nM rfl rfl rfl
          (by simp [sendSt])]
        by_cases hK0 : K sc = 0
        · rw [readNext_senderW0_empty sc hK0, senderW0_lastB64]
          refine Or.inr (Or.inr (Or.inl ⟨hK0, nM, ?_, rfl, h1, by show _ < sys.time + 1; omega⟩))
          simp [sendSt, Core.updateQRImage]
        · rw [readNext_senderW0_first sc (by omega)]
          refine Or.inr (Or.inr (Or.inr (Or.inl ⟨by omega, nM, sys.time, ?_, rfl, h1, h2,
            by show _ < sys.time + 1; omega⟩)))
          simp [sendSt, Core.updateQRImage, okEnv, senderC, jsTrim_wire]
      · -- phDead: the acknowledgement nonce was already consumed
        rw [hR] at hdisp
        simp only [recvRun] at hdisp
        injection hdisp with henv
        subst henv
        rw [hS, hR, Core.observe_stale _ _ _ _ _ (by simp [sendSt, mirEnv])]
        exact Or.inr (Or.inr (Or.inl ⟨hK, nM, rfl, rfl, h1, by show _ < sys.time + 1; omega⟩))
      · -- phA0: likewise stale
        rw [hR] at hdisp
        simp only [recvRun] at hdisp
        injection hdisp with henv
        subst henv
        rw [hS, hR, Core.observe_stale _ _ _ _ _ (by simp [sendSt, mirEnv])]
        exact Or.inr (Or.inr (Or.inr (Or.inl ⟨hK, nM, a, rfl, rfl, h1, h2, by show _ < sys.time + 1; omega⟩)))
      · -- phA: the shown digest was already consumed
        rw [hR] at hdisp
        simp only [recvRun] at hdisp
        injection hdisp with henv
        subst henv
        rw [hS, hR, Core.observe_stale _ _ _ _ _ (by simp [sendSt, evalEnv])]
        exact Or.inr (Or.inr (Or.inr (Or.inr (Or.inl
          ⟨p, aPrev, b, a, hp, rfl, rfl, h1, h2, by show _ < sys.time + 1; omega⟩))))
      · -- phB: the fresh digest matches; the Sender advances or completes
        rw [hR] at hdisp
        simp only [recvRun] at hdisp
        injection hdisp with henv
        subst henv
        rw [hS, hR]
        simp only [evalEnv]
        by_cases hlast : p + 1 = K sc
        · rw [Core.send_eval_match_last_eq sc.hash sc.metaParse sys.time _ (senderC sc p)
            (sha sc p) b rfl rfl rfl (by simp [sendSt]; omega) rfl
            (by rw [senderC_curChunk, senderC_fileChunks]; exact hlast)]
          refine Or.inr (Or.inr (Or.inr (Or.inr (Or.inr (Or.inr (Or.inl
            ⟨by omega, a, b, sys.time, ?_, ?_, h2, h3, by show _ < sys.time + 1; omega⟩))))))
          · have hpk : p = K sc - 1 := by omega
            rw [← hpk]
            simp [sendSt, doneEnv]
          · have hpk : p = K sc - 1 := by omega
            rw [← hpk]
            simp [recvRun, evalEnv]
        · rw [Core.send_eval_match_next_eq sc.hash sc.metaParse sys.time _ (senderC sc p)
            (sha sc p) b rfl rfl rfl (by simp [sendSt]; omega) rfl
            (by rw [senderC_curChunk, senderC_fileChunks]; omega)]
          rw [readNext_senderC sc p (by omega)]
          refine Or.inr (Or.inr (Or.inr (Or.inr (Or.inl
            ⟨p, a, b, sys.time, by omega, ?_, rfl, h2, h3, by show _ < sys.time + 1; omega⟩))))
          simp [sendSt, Core.updateQRImage, okEnv, senderC, jsTrim_wire]
      · -- phC: the last digest was already consumed
        rw [hR] at hdisp
        simp only [recvRun] at hdisp
        injection hdisp with henv
        subst henv
        rw [hS, hR, Core.observe_stale _ _ _ _ _ (by simp [sendSt, evalEnv])]
        exact Or.inr (Or.inr (Or.inr (Or.inr (Or.inr (Or.inr (Or.inl
          ⟨hK, aPrev, b, a2, rfl, rfl, h1, h2, by show _ < sys.time + 1; omega⟩))))))
      · -- phD: the Receiver shows nothing any more
        rw [hR] at hdisp
        exact absurd hdisp (by simp)
  | receiverObs env hdisp =>
      rcases hI with ⟨hS, hR, ht⟩ | ⟨nM, hS, hR, h1, h2⟩ | ⟨hK, nM, hS, hR, h1, h2⟩ |
        ⟨hK, nM, a, hS, hR, h1, h2, h3⟩ | ⟨p, aPrev, b, a, hp, hS, hR, h1, h2, h3⟩ |
        ⟨p, sl, a, b, hp, hS, hR, h1, h2, h3⟩ | ⟨hK, aPrev, b, a2, hS, hR, h1, h2, h3⟩ |
        ⟨a2, sl, hS, hR, h1, h2⟩
      · -- ph0: the Receiver accepts the meta info and acknowledges
        rw [hS] at hdisp
        simp only [sendSt] at hdisp
        injection hdisp with henv
        subst henv
        rw [hS, hR]
        simp only [metaEnv]
        rw [Core.recv_meta_eq sc.hash sc.metaParse sys.time _ (m0 sc) _ 0 rfl rfl rfl
          (by simp [recvRun]) Hm]
        refine Or.inr (Or.inl ⟨sys.time, rfl, ?_, ht, by show _ < sys.time + 1; omega⟩)
        simp [recvRun, recvW0, mirEnv]
      · -- ph1: the meta info nonce was already consumed
        rw [hS] at hdisp
        simp only [sendSt] at hdisp
        injection hdisp with henv
        subst henv
        rw [hS, hR, Core.observe_stale _ _ _ _ _ (by simp [recvRun, metaEnv])]
        exact Or.inr (Or.inl ⟨nM, rfl, rfl, h1, by show _ < sys.time + 1; omega⟩)
      · -- phDead: the Sender shows nothing
        rw [hS] at hdisp
        exact absurd hdisp (by simp [sendSt])
      · -- phA0: the Receiver takes chunk 0 as pending and reports its digest
        rw [hS] at hdisp
        simp only [sendSt] at hdisp
        injection hdisp with henv
        subst henv
        rw [hS, hR]
        simp only [okEnv]
        rw [Core.recv_okNext_eq sc.hash sc.metaParse sys.time _ (recvW0 sc) (chunkAt sc 0)
          (wire sc 0) a rfl rfl rfl (recvW0_readMode sc) (decode_wire sc Hb 0)
          (by simp [recvRun]; omega)]
        rw [commit_recvW0 sc]
        refine Or.inr (Or.inr (Or.inr (Or.inr (Or.inr (Or.inl
          ⟨0, nM, a, sys.time, by omega, rfl, ?_, by omega, h3, by show _ < sys.time + 1; omega⟩)))))
        simp [recvRun, recvWP, recvW0_eq, evalEnv, sha, jsTrim_sha256 sc.hash Hh]
      · -- phA: the Receiver commits chunk `p` and takes chunk `p+1` as pending
        rw [hS] at hdisp
        simp only [sendSt] at hdisp
        injection hdisp with henv
        subst henv
        rw [hS, hR]
        simp only [okEnv]
        rw [Core.recv_okNext_eq sc.hash sc.metaParse sys.time _ (recvWP sc p)
          (chunkAt sc (p + 1)) (wire sc (p + 1)) a rfl rfl rfl (recvWP_readMode sc p)
          (decode_wire sc Hb (p + 1)) (by simp [recvRun]; omega)]
        rw [commit_recvWP sc p]
        refine Or.inr (Or.inr (Or.inr (Or.inr (Or.inr (Or.inl
          ⟨p + 1, b, a, sys.time, by omega, rfl, ?_, by omega, h3, by show _ < sys.time + 1; omega⟩)))))
        simp [recvRun, recvWP, recvW0_eq, evalEnv, sha, jsTrim_sha256 sc.hash Hh]
      · -- phB: the chunk on the wire was already consumed
        rw [hS] at hdisp
        simp only [sendSt] at hdisp
        injection hdisp with henv
        subst henv
        rw [hS, hR, Core.observe_stale _ _ _ _ _ (by simp [recvRun, okEnv])]
        exact Or.inr (Or.inr (Or.inr (Or.inr (Or.inr (Or.inl
          ⟨p, sl, a, b, hp, rfl, rfl, h1, h2, by show _ < sys.time + 1; omega⟩)))))
      · -- phC: the Receiver commits the last chunk, delivers and tears down
        rw [hS] at hdisp
        simp only [sendSt] at hdisp
        injection hdisp with henv
        subst henv
        rw [hS, hR]
        simp only [doneEnv]
        rw [Core.recv_completed_eq sc.hash sc.metaParse sys.time _ (recvWP sc (K sc - 1))
          a2 rfl rfl rfl (recvWP_readMode sc _) (by simp [recvRun]; omega)]
        rw [commit_recvWP sc (K sc - 1)]
        refine Or.inr (Or.inr (Or.inr (Or.inr (Or.inr (Or.inr (Or.inr
          ⟨a2, b, rfl, ?_, h2, by show _ < sys.time + 1; omega⟩))))))
        have hK1 : K sc - 1 + 1 = K sc := by omega
        rw [hK1, recvW0_eq]
        simp [recvRun, deliv, m0, Core.stopReceivingSt, flatten_chunks_sc sc Hc]
      · -- phD: the Receiver is no longer running; nothing changes
        rw [hS] at hdisp
        simp only [sendSt] at hdisp
        injection hdisp with henv
        subst henv
        rw [hS, hR, observe_not_running _ _ _ _ _ (by rfl)]
        exact Or.inr (Or.inr (Or.inr (Or.inr (Or.inr (Or.inr (Or.inr
          ⟨a2, sl, rfl, rfl, h1, by show _ < sys.time + 1; omega⟩))))))

/-- Every reachable joint state satisfies the invariant. -/
theorem reach_inv (sc : Scenario) (hv : Valid sc) {sys : Sys} (hr : Reach sc sys) :
    Inv sc sys := by
  induction hr with
  | init => exact Or.inl ⟨rfl, rfl, by simp [sysInit]⟩
  | step _ hstep ih => exact step_preserves sc hv ih hstep

end Session

/-- C1 (amended): over a channel that delivers every observed envelope intact
(repeat sightings and lost frames allowed, but no corrupted observations), in
every session that runs to completion — the Receiver has processed a
`completed` envelope and handed a file to the download collaborator — the
delivered byte stream (the in-order concatenation of the committed chunks) is
byte-for-byte the Sender's source file, and its length is exactly
`file_size`.  Under observation noise the unrestricted claim is false: see
the counterexample below. -/
theorem c1_completed_session_delivers_source_file (sc : Scenario)
    (hv : Session.Valid sc) {sys : Session.Sys} (hr : Session.Reach sc sys)
    (out : Delivered) (hdel : sys.receiver.delivered = some out) :
    out.bytes = sc.bytes ∧ out.bytes.length = (Session.m0 sc).fileSize := by
  have hI := Session.reach_inv sc hv hr
  rcases hI with ⟨hS, hR, ht⟩ | ⟨nM, hS, hR, h1, h2⟩ | ⟨hK, nM, hS, hR, h1, h2⟩ |
    ⟨hK, nM, a, hS, hR, h1, h2, h3⟩ | ⟨p, aPrev, b, a, hp, hS, hR, h1, h2, h3⟩ |
    ⟨p, sl, a, b, hp, hS, hR, h1, h2, h3⟩ | ⟨hK, aPrev, b, a2, hS, hR, h1, h2, h3⟩ |
    ⟨a2, sl, hS, hR, h1, h2⟩
  · rw [hR] at hdel; simp [Session.recvRun] at hdel
  · rw [hR] at hdel; simp [Session.recvRun] at hdel
  · rw [hR] at hdel; simp [Session.recvRun] at hdel
  · rw [hR] at hdel; simp [Session.recvRun] at hdel
  · rw [hR] at hdel; simp [Session.recvRun] at hdel
  · rw [hR] at hdel; simp [Session.recvRun] at hdel
  · rw [hR] at hdel; simp [Session.recvRun] at hdel
  · rw [hR] at hdel
    simp at hdel
    subst hdel
    exact ⟨rfl, rfl⟩

/-- The single-chunk run of `wSc` reaches the delivered state. -/
theorem wReach5 : Session.Reach wSc wSys5 :=
  Session.Reach.step
    (Session.Reach.step
      (Session.Reach.step
        (Session.Reach.step
          (Session.Reach.step Session.Reach.init
            (Session.Step.receiverObs wSys0 (Session.metaEnv wSc) rfl))
          (Session.Step.senderObs wSys1 (Session.mirEnv 1) (by decide)))
        (Session.Step.receiverObs wSys2 (Session.okEnv wSc 0 2) (by decide)))
      (Session.Step.senderObs wSys3 (Session.evalEnv wSc 0 3) (by decide)))
    (Session.Step.receiverObs wSys4 (Session.doneEnv 4) (by decide))

theorem c1_witness :
    Session.Valid wSc ∧
    wSys5.receiver.delivered = some (Session.deliv wSc) ∧
    (Session.deliv wSc).bytes = wSc.bytes ∧
    (Session.deliv wSc).bytes.length = (Session.m0 wSc).fileSize := by
  have hv : Session.Valid wSc :=
    ⟨by decide, by decide, by intro s ch h; simp [wSc, nullHash] at h, rfl⟩
  have hdel : wSys5.receiver.delivered = some (Session.deliv wSc) := by decide
  refine ⟨hv, hdel, ?_⟩
  exact c1_completed_session_delivers_source_file wSc hv wReach5 (Session.deliv wSc) hdel

/-- The noisy run of `wSc` reaches its delivered state: all observations are
exact sightings of the peer's display except one, whose nonce is misread (9
instead of 2) with kind and body intact. -/
theorem cReach6 : Session.ReachN wSc cSys6 :=
  Session.ReachN.step
    (Session.ReachN.step
      (Session.ReachN.step
        (Session.ReachN.step
          (Session.ReachN.step
            (Session.ReachN.step Session.ReachN.init
              (Session.StepN.receiverObs wSys0 (Session.metaEnv wSc) rfl))
            (Session.StepN.senderObs wSys1 (Session.mirEnv 1) (by decide)))
          (Session.StepN.receiverObs wSys2 (Session.okEnv wSc 0 2) (by decide)))
        (Session.StepN.receiverMisread wSys3 (Session.okEnv wSc 0 2) 9 (by decide)))
      (Session.StepN.senderObs cSys4 (Session.evalEnv wSc 0 4) (by decide)))
    (Session.StepN.receiverObs cSys5 (Session.doneEnv 5) (by decide))

/-- C1 counterexample: over the noisy visual channel the unrestricted claim
is false.  A single sighting of the already-processed `ok_next` whose nonce
is misread (body intact) makes the Receiver commit the pending chunk without
any acknowledgement and re-pend the same chunk; the re-reported digest still
matches, the Sender emits `completed`, and the session runs to completion —
every chunk acknowledged — yet the delivered stream is the source file with
the chunk duplicated: 8 bytes instead of `file_size = 4`. -/
theorem c1_counterexample :
    Session.ReachN wSc cSys6 ∧
    cSys6.receiver.delivered = some cDeliv ∧
    cDeliv.bytes ≠ wSc.bytes ∧
    cDeliv.bytes.length ≠ (Session.m0 wSc).fileSize :=
  ⟨cReach6, by decide, by decide, by decide⟩

end QRFT
